import Mathlib

/-!
Verification of the cdk-destroy-with-running-ecs tool (src/main.go).

The Go program is a linear orchestration of AWS control-plane calls followed
by a shell-out to the CDK CLI.  We embed it shallowly: every remote call is
resolved through a `World` record of oracles (the responses the cloud would
give), and every request actually issued by the program is recorded as an
`Event`.  Each Go function becomes a pure Lean function from the world (and
its string arguments) to the list of issued events plus its success/failure
result, mirroring the Go control flow statement by statement.
-/

/-- Embedding of Go's strings.Split with a single-character separator,
operating on the character list of the string.  Mirrors the Go semantics:
the result always has at least one element, and `Split ""` gives one empty
field. -/
def splitOnChar (sep : Char) : List Char → List (List Char)
  | [] => [[]]
  | c :: cs =>
    let rest := splitOnChar sep cs
    if c = sep then [] :: rest
    else (c :: rest.headD []) :: rest.tail

/-- Embedding of `arnToName` (src/main.go lines 230-233 and 456-459):
split the string on the path separator and take the last field. -/
def arnToName (arn : String) : String :=
  ⟨(splitOnChar '/' arn.data).getLastD []⟩

/-- A resource summary as returned by CloudFormation ListStackResources:
the two fields the program reads, both nullable pointers in the SDK. -/
structure StackResourceSummary where
  resourceType : Option String
  physicalResourceId : Option String
deriving DecidableEq, Repr

/-- The predicate of the scan loop in getEcsClusterNameFromStack:
r.ResourceType != nil and equal to the ECS cluster type string. -/
def isEcsCluster (r : StackResourceSummary) : Bool :=
  r.resourceType = some "AWS::ECS::Cluster"

/-- A page of results from a list call: the items plus the pagination
continuation token the response carries (NextToken in the SDK). -/
def Page (α : Type) : Type := List α × Option String

/-- Requests the program issues against the control plane or the OS.
Each constructor records the parameters the Go code passes. -/
inductive Event where
  | listStackResources (stackName : String)
  | listServices (cluster : String)
  | updateService (cluster svc : String) (desiredCount : Int)
  | waitStable (cluster svc : String)
  | deleteService (cluster svc : String) (force : Bool)
  | listTasks (cluster : String) (desiredStatus : String)
  | stopTask (cluster task reason : String)
  | runCdk (cmd : String) (args : List String) (dir : String)
deriving DecidableEq, Repr

/-- The responses the cloud control plane would give to each request, plus
the outcome of config loading and of the external cdk process.  The per-item
update/wait/delete/stop outcomes are indexed by cluster and item name. -/
structure World where
  configOk : Bool
  listStackResources : String → Except String (Page StackResourceSummary)
  listServices : String → Except String (Page String)
  updateOk : String → String → Bool
  waitOk : String → String → Bool
  deleteOk : String → String → Bool
  listTasks : String → Except String (Page String)
  stopOk : String → String → Bool
  cdkExitOk : Bool

/-- Embedding of getEcsClusterNameFromStack (src/main.go lines 90-106 and
333-348) applied to the ListStackResources response: propagate a call error;
otherwise scan the summaries in order and return the physical id of the
first entry whose resource type is AWS::ECS::Cluster, or the empty string
when none matches. -/
def getEcsClusterNameFromStack (res : Except String (Page StackResourceSummary)) :
    Except String String :=
  match res with
  | Except.error e => Except.error e
  | Except.ok (rs, _) =>
    match rs.find? isEcsCluster with
    | some r => Except.ok (r.physicalResourceId.getD "")
    | none => Except.ok ""

/-- The body of the per-service loop of deleteEcsServices (src/main.go lines
127-157 and 366-393): issue the UpdateService request; on error, continue to
the next service; otherwise wait for stability (its error is only logged)
and issue the forced DeleteService request (its error is only logged). -/
def serviceEvents (w : World) (cluster svcArn : String) : List Event :=
  let svcName := arnToName svcArn
  if w.updateOk cluster svcName then
    [Event.updateService cluster svcName 0,
     Event.waitStable cluster svcName,
     Event.deleteService cluster svcName true]
  else
    [Event.updateService cluster svcName 0]

/-- Embedding of deleteEcsServices (src/main.go lines 111-160 and 351-395):
issue ListServices; on error return failure; otherwise process each service
ARN of the first page in order via the loop body, and return success. -/
def deleteEcsServices (w : World) (cluster : String) : List Event × Bool :=
  match w.listServices cluster with
  | Except.error _ => ([Event.listServices cluster], false)
  | Except.ok (arns, _) =>
    (Event.listServices cluster :: arns.flatMap (serviceEvents w cluster), true)

/-- Embedding of stopRemainingTasks (src/main.go lines 165-195 and 398-426):
issue ListTasks filtered to RUNNING desired status; on error return failure;
otherwise issue one StopTask request per task ARN of the first page, each
with reason "Cleanup before destroy" (stop errors are only logged), and
return success. -/
def stopRemainingTasks (w : World) (cluster : String) : List Event × Bool :=
  match w.listTasks cluster with
  | Except.error _ => ([Event.listTasks cluster "RUNNING"], false)
  | Except.ok (arns, _) =>
    (Event.listTasks cluster "RUNNING" ::
      arns.map (fun a => Event.stopTask cluster a "Cleanup before destroy"), true)

/-- The cdk destroy argument list built by runCdkDestroy (src/main.go lines
200-225 and 429-453): start from destroy --all --force, append the profile
pair when the profile is non-empty, then append --app "npx ts-node path". -/
def cdkDestroyArgs (profile cdkAppPath : String) : List String :=
  let args := ["destroy", "--all", "--force"]
  let args := if profile != "" then args ++ ["--profile", profile] else args
  let appArg := "npx ts-node " ++ cdkAppPath
  args ++ ["--app", appArg]

/-- The external process invocation runCdkDestroy prepares: command name,
ordered argument list, working directory. -/
structure CmdSpec where
  name : String
  args : List String
  dir : String
deriving DecidableEq, Repr

/-- Embedding of runCdkDestroy (src/main.go lines 429-453, the variant
taking the app root and the full entry path): run cdk with the composed
argument list, with the working directory set to the app root. -/
def runCdkDestroy (profile cdkAppRoot cdkAppPath : String) : CmdSpec :=
  { name := "cdk", args := cdkDestroyArgs profile cdkAppPath, dir := cdkAppRoot }

/-- Embedding of main (src/main.go lines 280-321): check the required flags,
load the config, resolve the cluster name from the stack, run stages 2-3
when a cluster was found (aborting on their fatal failures), then invoke
cdk destroy.  Returns the issued requests and overall success. -/
def mainRun (w : World) (stackName profile cdkAppRoot cdkAppPath : String) :
    List Event × Bool :=
  if stackName = "" then ([], false)
  else if cdkAppPath = "" then ([], false)
  else if w.configOk = false then ([], false)
  else
    let inspectEv := Event.listStackResources stackName
    match getEcsClusterNameFromStack (w.listStackResources stackName) with
    | Except.error _ => ([inspectEv], false)
    | Except.ok clusterName =>
      let destroy := runCdkDestroy profile cdkAppRoot cdkAppPath
      let destroyEv := Event.runCdk destroy.name destroy.args destroy.dir
      if clusterName = "" then
        ([inspectEv, destroyEv], w.cdkExitOk)
      else
        let s := deleteEcsServices w clusterName
        if s.2 = false then (inspectEv :: s.1, false)
        else
          let t := stopRemainingTasks w clusterName
          if t.2 = false then (inspectEv :: s.1 ++ t.1, false)
          else (inspectEv :: s.1 ++ t.1 ++ [destroyEv], w.cdkExitOk)

/-- A concrete world used to exercise the theorems: one cluster in the
stack, two services whose short names are A and B (only the update of A
succeeds), one running task, and a stability wait that always fails. -/
def demoWorld : World :=
  { configOk := true
    listStackResources := fun _ =>
      Except.ok ([⟨some "AWS::ECS::Cluster", some "demo-cluster"⟩], none)
    listServices := fun _ => Except.ok (["svc/A", "svc/B"], none)
    updateOk := fun _ n => n == "A"
    waitOk := fun _ _ => false
    deleteOk := fun _ _ => true
    listTasks := fun _ => Except.ok (["task/t1"], none)
    stopOk := fun _ _ => true
    cdkExitOk := true }

/-- A concrete world whose cluster has no services and no running tasks. -/
def emptyClusterWorld : World :=
  { configOk := true
    listStackResources := fun _ =>
      Except.ok ([⟨some "AWS::ECS::Cluster", some "demo-cluster"⟩], none)
    listServices := fun _ => Except.ok ([], none)
    updateOk := fun _ _ => true
    waitOk := fun _ _ => true
    deleteOk := fun _ _ => true
    listTasks := fun _ => Except.ok ([], none)
    stopOk := fun _ _ => true
    cdkExitOk := true }

/-- A concrete world whose stack contains no ECS cluster resource. -/
def noClusterWorld : World :=
  { configOk := true
    listStackResources := fun _ =>
      Except.ok ([⟨some "AWS::S3::Bucket", some "bkt"⟩], none)
    listServices := fun _ => Except.ok ([], none)
    updateOk := fun _ _ => true
    waitOk := fun _ _ => true
    deleteOk := fun _ _ => true
    listTasks := fun _ => Except.ok ([], none)
    stopOk := fun _ _ => true
    cdkExitOk := true }

/-- A family of concrete worlds identical except for the pagination token
their list responses carry. -/
def tokenWorld (tok : Option String) : World :=
  { configOk := true
    listStackResources := fun _ =>
      Except.ok ([⟨some "AWS::ECS::Cluster", some "demo-cluster"⟩], tok)
    listServices := fun _ => Except.ok (["svc/A"], tok)
    updateOk := fun _ _ => true
    waitOk := fun _ _ => true
    deleteOk := fun _ _ => true
    listTasks := fun _ => Except.ok (["task/t1"], tok)
    stopOk := fun _ _ => true
    cdkExitOk := true }

theorem splitOnChar_ne_nil (sep : Char) (l : List Char) :
    splitOnChar sep l ≠ [] := by
  cases l with
  | nil => simp [splitOnChar]
  | cons c cs =>
    simp only [splitOnChar]
    split <;> simp

theorem splitOnChar_of_not_mem (sep : Char) (l : List Char)
    (h : sep ∉ l) : splitOnChar sep l = [l] := by
  induction l with
  | nil => rfl
  | cons c cs ih =>
    simp only [List.mem_cons, not_or] at h
    have hc : ¬ c = sep := fun hc => h.1 hc.symm
    simp [splitOnChar, ih h.2, hc]

theorem splitOnChar_append_sep (sep : Char) (a b : List Char) :
    splitOnChar sep (a ++ sep :: b) = splitOnChar sep a ++ splitOnChar sep b := by
  induction a with
  | nil =>
    simp [splitOnChar]
  | cons c cs ih =>
    rcases hT : splitOnChar sep cs with _ | ⟨p, ps⟩
    · exact absurd hT (splitOnChar_ne_nil sep cs)
    · simp only [List.cons_append, splitOnChar, ih, hT]
      split <;> simp [ih, hT]

/-- C1: the Destroyer Invoker composes the argument list exactly as
destroy --all --force [--profile P] --app "npx ts-node entry-path" (the
profile pair present exactly when the profile is non-empty) and runs the
child process in the given working directory; at profile "prod", app root
"/app" and entry path "/app/bin/app.ts" the list is exactly
destroy --all --force --profile prod --app "npx ts-node /app/bin/app.ts"
and the working directory is /app. -/
theorem cdk_destroy_args_spec :
    (∀ profile root path : String,
      runCdkDestroy profile root path =
        { name := "cdk"
          args := ["destroy", "--all", "--force"] ++
            (if profile = "" then [] else ["--profile", profile]) ++
            ["--app", "npx ts-node " ++ path]
          dir := root }) ∧
    runCdkDestroy "prod" "/app" "/app/bin/app.ts" =
      { name := "cdk"
        args := ["destroy", "--all", "--force", "--profile", "prod",
                 "--app", "npx ts-node /app/bin/app.ts"]
        dir := "/app" } := by
  constructor
  · intro profile root path
    by_cases h : profile = "" <;>
      simp [runCdkDestroy, cdkDestroyArgs, h]
  · rfl

/-- C7: short-name extraction returns the substring after the final path
separator: the sample ARN maps to "my-service", an input with no separator
is returned unchanged, and when the suffix b holds no separator the input
a ++ "/" ++ b maps to b. -/
theorem arn_short_name :
    arnToName "arn:aws:ecs:region:acct:service/cluster-x/my-service" = "my-service" ∧
    (∀ arn : String, '/' ∉ arn.data → arnToName arn = arn) ∧
    (∀ a b : String, '/' ∉ b.data → arnToName (a ++ "/" ++ b) = b) := by
  refine ⟨rfl, ?_, ?_⟩
  · intro arn h
    simp [arnToName, splitOnChar_of_not_mem _ _ h]
  · intro a b h
    have hdata : (a ++ "/" ++ b).data = a.data ++ '/' :: b.data := by
      simp [String.data_append]
    simp [arnToName, hdata, splitOnChar_append_sep,
      splitOnChar_of_not_mem _ _ h]

/-- Witness for C7 at a concrete prefix and suffix. -/
theorem arn_short_name_witness :
    arnToName ("arn:aws:x" ++ "/" ++ "thing") = "thing" :=
  arn_short_name.2.2 "arn:aws:x" "thing" (by decide)

/-- C10: short-name extraction is total: splitting any string on the
separator yields a non-empty list (so the last-element access is in
bounds), the empty string maps to the empty string, and any input ending
in the separator maps to the empty string. -/
theorem arn_short_name_total :
    (∀ arn : String, 0 < (splitOnChar '/' arn.data).length) ∧
    arnToName "" = "" ∧
    (∀ s : String, arnToName (s ++ "/") = "") := by
  refine ⟨?_, rfl, ?_⟩
  · intro arn
    cases h : splitOnChar '/' arn.data with
    | nil => exact absurd h (splitOnChar_ne_nil _ _)
    | cons p ps => simp
  · intro s
    have hdata : (s ++ "/").data = s.data ++ '/' :: ([] : List Char) := by
      simp [String.data_append]
    simp [arnToName, hdata, splitOnChar_append_sep, splitOnChar]

/-- C8: with the required stack flag empty, the run terminates in failure
immediately: no cloud request and no destroy invocation is issued (the
event list is empty) and the result is a non-zero exit. -/
theorem missing_stack_flag_aborts :
    ∀ (w : World) (profile root path : String),
      mainRun w "" profile root path = ([], false) := by
  intro w profile root path
  rfl

/-- C3: the Stack Inspector propagates a listing error; with no entry of
type AWS::ECS::Cluster it returns the empty string without error; and for a
list pre ++ r :: post where r is the first cluster entry it returns the
physical identifier of r. -/
theorem cluster_lookup_first_match :
    (∀ e : String,
      getEcsClusterNameFromStack (Except.error e) = Except.error e) ∧
    (∀ (rs : List StackResourceSummary) (tok : Option String),
      (∀ r ∈ rs, isEcsCluster r = false) →
      getEcsClusterNameFromStack (Except.ok (rs, tok)) = Except.ok "") ∧
    (∀ (pre : List StackResourceSummary) (r : StackResourceSummary)
       (post : List StackResourceSummary) (tok : Option String),
      (∀ x ∈ pre, isEcsCluster x = false) → isEcsCluster r = true →
      getEcsClusterNameFromStack (Except.ok (pre ++ r :: post, tok)) =
        Except.ok (r.physicalResourceId.getD "")) := by
  refine ⟨fun e => rfl, ?_, ?_⟩
  · intro rs tok h
    have hnone : rs.find? isEcsCluster = none := by
      rw [List.find?_eq_none]
      intro x hx
      simp [h x hx]
    simp [getEcsClusterNameFromStack, hnone]
  · intro pre r post tok hpre hr
    have hfind : (pre ++ r :: post).find? isEcsCluster = some r := by
      induction pre with
      | nil => simp [List.find?_cons_of_pos, hr]
      | cons x xs ih =>
        have hx : isEcsCluster x = false := hpre x (by simp)
        have hstep : List.find? isEcsCluster (x :: (xs ++ r :: post)) =
            List.find? isEcsCluster (xs ++ r :: post) :=
          List.find?_cons_of_neg _ (by simp [hx])
        rw [List.cons_append, hstep]
        exact ih (fun y hy => hpre y (by simp [hy]))
    simp [getEcsClusterNameFromStack, hfind]

/-- Witness for C3: the first cluster entry wins over a later one, and a
non-cluster entry before it is skipped. -/
theorem cluster_lookup_first_match_witness :
    getEcsClusterNameFromStack (Except.ok
      ([⟨some "AWS::S3::Bucket", some "bkt"⟩,
        ⟨some "AWS::ECS::Cluster", some "my-cluster"⟩,
        ⟨some "AWS::ECS::Cluster", some "second"⟩], none)) =
      Except.ok "my-cluster" := by
  have h := cluster_lookup_first_match.2.2
    [⟨some "AWS::S3::Bucket", some "bkt"⟩]
    ⟨some "AWS::ECS::Cluster", some "my-cluster"⟩
    [⟨some "AWS::ECS::Cluster", some "second"⟩] none
    (by decide) (by decide)
  simpa using h

/-- C2: the Service Drainer processes the listed services in list order;
a service whose desired-count-zero update fails contributes only the
update request (no wait, no delete); a service whose update succeeds gets
the wait and the forced delete even when the wait fails; and for services
[A, B] with A's update succeeding and B's failing, the issued requests are
exactly list, update A, wait A, delete A, update B. -/
theorem drain_order_and_skip :
    (∀ (w : World) (c : String) (arns : List String) (tok : Option String),
      w.listServices c = Except.ok (arns, tok) →
      (deleteEcsServices w c).1 =
        Event.listServices c :: arns.flatMap (serviceEvents w c)) ∧
    (∀ (w : World) (c s : String),
      w.updateOk c (arnToName s) = false →
      serviceEvents w c s = [Event.updateService c (arnToName s) 0]) ∧
    (∀ (w : World) (c s : String),
      w.updateOk c (arnToName s) = true → w.waitOk c (arnToName s) = false →
      serviceEvents w c s =
        [Event.updateService c (arnToName s) 0,
         Event.waitStable c (arnToName s),
         Event.deleteService c (arnToName s) true]) ∧
    (∀ (w : World) (c A B : String) (tok : Option String),
      w.listServices c = Except.ok ([A, B], tok) →
      w.updateOk c (arnToName A) = true → w.updateOk c (arnToName B) = false →
      (deleteEcsServices w c).1 =
        [Event.listServices c,
         Event.updateService c (arnToName A) 0,
         Event.waitStable c (arnToName A),
         Event.deleteService c (arnToName A) true,
         Event.updateService c (arnToName B) 0]) := by
  refine ⟨?_, ?_, ?_, ?_⟩
  · intro w c arns tok h
    simp [deleteEcsServices, h]
  · intro w c s h
    simp [serviceEvents, h]
  · intro w c s h _hw
    simp [serviceEvents, h]
  · intro w c A B tok h hA hB
    simp [deleteEcsServices, h, serviceEvents, hA, hB]

/-- Witness for C2 in the demo world: services svc/A and svc/B, only A's
update succeeds, the wait always fails; delete A is still issued and B
gets neither wait nor delete. -/
theorem drain_order_and_skip_witness :
    (deleteEcsServices demoWorld "demo-cluster").1 =
      [Event.listServices "demo-cluster",
       Event.updateService "demo-cluster" (arnToName "svc/A") 0,
       Event.waitStable "demo-cluster" (arnToName "svc/A"),
       Event.deleteService "demo-cluster" (arnToName "svc/A") true,
       Event.updateService "demo-cluster" (arnToName "svc/B") 0] :=
  drain_order_and_skip.2.2.2 demoWorld "demo-cluster" "svc/A" "svc/B" none
    rfl (by decide) (by decide)

/-- C5: the Service Drainer fails exactly when its ListServices call
fails: its success bit is true iff the listing returned a page, whatever
the per-service update, wait and delete outcomes are; and an empty service
list is a successful run issuing nothing beyond the listing. -/
theorem drain_failure_mode :
    (∀ (w : World) (c : String),
      (deleteEcsServices w c).2 = true ↔
        ∃ page, w.listServices c = Except.ok page) ∧
    (∀ (w : World) (c : String) (tok : Option String),
      w.listServices c = Except.ok ([], tok) →
      deleteEcsServices w c = ([Event.listServices c], true)) := by
  constructor
  · intro w c
    cases h : w.listServices c with
    | error e => simp [deleteEcsServices, h]
    | ok page =>
      cases page with
      | mk arns tok => simp [deleteEcsServices, h]
  · intro w c tok h
    simp [deleteEcsServices, h]

/-- Witness for C5: success in the demo world where some per-service
operations fail, and the empty-cluster world is a successful no-op. -/
theorem drain_failure_mode_witness :
    (deleteEcsServices demoWorld "c").2 = true ∧
    deleteEcsServices emptyClusterWorld "c" = ([Event.listServices "c"], true) :=
  ⟨(drain_failure_mode.1 demoWorld "c").mpr ⟨(["svc/A", "svc/B"], none), rfl⟩,
   drain_failure_mode.2 emptyClusterWorld "c" none rfl⟩

/-- C6: the Task Reaper issues exactly one stop request per listed running
task, each carrying the fixed reason "Cleanup before destroy"; an empty
task list issues zero stops and succeeds; a listing failure makes the
reaper fail; and its behaviour depends only on the ListTasks response, so
per-task stop outcomes never change its result. -/
theorem task_reaper_stop_calls :
    (∀ (w : World) (c : String) (arns : List String) (tok : Option String),
      w.listTasks c = Except.ok (arns, tok) →
      stopRemainingTasks w c =
        (Event.listTasks c "RUNNING" ::
          arns.map (fun a => Event.stopTask c a "Cleanup before destroy"),
         true)) ∧
    (∀ (w : World) (c : String) (tok : Option String),
      w.listTasks c = Except.ok ([], tok) →
      stopRemainingTasks w c = ([Event.listTasks c "RUNNING"], true)) ∧
    (∀ (w : World) (c e : String),
      w.listTasks c = Except.error e →
      (stopRemainingTasks w c).2 = false) ∧
    (∀ (w w2 : World) (c : String),
      w.listTasks c = w2.listTasks c →
      stopRemainingTasks w c = stopRemainingTasks w2 c) := by
  refine ⟨?_, ?_, ?_, ?_⟩
  · intro w c arns tok h
    simp [stopRemainingTasks, h]
  · intro w c tok h
    simp [stopRemainingTasks, h]
  · intro w c e h
    simp [stopRemainingTasks, h]
  · intro w w2 c h
    simp only [stopRemainingTasks, h]

/-- Witness for C6: one running task in the demo world gives exactly one
stop request with the fixed reason; the empty-cluster world gives none. -/
theorem task_reaper_stop_calls_witness :
    stopRemainingTasks demoWorld "demo-cluster" =
      (Event.listTasks "demo-cluster" "RUNNING" ::
        [Event.stopTask "demo-cluster" "task/t1" "Cleanup before destroy"],
       true) ∧
    stopRemainingTasks emptyClusterWorld "demo-cluster" =
      ([Event.listTasks "demo-cluster" "RUNNING"], true) :=
  ⟨task_reaper_stop_calls.1 demoWorld "demo-cluster" ["task/t1"] none rfl,
   task_reaper_stop_calls.2.1 emptyClusterWorld "demo-cluster" none rfl⟩

/-- C4: when the Stack Inspector resolves the stack to an empty cluster
name, the run issues no service-drain and no task-stop request: the only
requests are the stack-resource listing and the cdk destroy invocation,
whose exit status becomes the run's result. -/
theorem no_cluster_skips_stages :
    ∀ (w : World) (stk profile root path : String),
      stk ≠ "" → path ≠ "" → w.configOk = true →
      getEcsClusterNameFromStack (w.listStackResources stk) = Except.ok "" →
      mainRun w stk profile root path =
        ([Event.listStackResources stk,
          Event.runCdk "cdk" (cdkDestroyArgs profile path) root],
         w.cdkExitOk) := by
  intro w stk profile root path h1 h2 h3 h4
  simp [mainRun, h1, h2, h3, h4, runCdkDestroy]

/-- Witness for C4: a stack holding only a bucket resource skips straight
to the destroy invocation. -/
theorem no_cluster_skips_stages_witness :
    mainRun noClusterWorld "stk" "" "." "/a/app.ts" =
      ([Event.listStackResources "stk",
        Event.runCdk "cdk" (cdkDestroyArgs "" "/a/app.ts") "."],
       true) :=
  no_cluster_skips_stages noClusterWorld "stk" "" "." "/a/app.ts"
    (by decide) (by decide) rfl rfl

/-- C9: each listing consumes only the first page: the continuation token
in the response never influences the Stack Inspector, the Service Drainer
or the Task Reaper, so two worlds whose list responses differ only in the
token produce identical requests and results. -/
theorem first_page_only :
    (∀ (rs : List StackResourceSummary) (t1 t2 : Option String),
      getEcsClusterNameFromStack (Except.ok (rs, t1)) =
        getEcsClusterNameFromStack (Except.ok (rs, t2))) ∧
    (∀ (w w2 : World) (c : String) (arns : List String) (t1 t2 : Option String),
      w.updateOk = w2.updateOk →
      w.listServices c = Except.ok (arns, t1) →
      w2.listServices c = Except.ok (arns, t2) →
      deleteEcsServices w c = deleteEcsServices w2 c) ∧
    (∀ (w w2 : World) (c : String) (arns : List String) (t1 t2 : Option String),
      w.listTasks c = Except.ok (arns, t1) →
      w2.listTasks c = Except.ok (arns, t2) →
      stopRemainingTasks w c = stopRemainingTasks w2 c) := by
  refine ⟨?_, ?_, ?_⟩
  · intro rs t1 t2
    rfl
  · intro w w2 c arns t1 t2 hupd h1 h2
    have hse : serviceEvents w = serviceEvents w2 := by
      funext cl s
      simp [serviceEvents, hupd]
    simp [deleteEcsServices, h1, h2, hse]
  · intro w w2 c arns t1 t2 h1 h2
    simp [stopRemainingTasks, h1, h2]

/-- Witness for C9: worlds differing only in their pagination tokens give
identical drainer and reaper behaviour. -/
theorem first_page_only_witness :
    deleteEcsServices (tokenWorld (some "more")) "c" =
      deleteEcsServices (tokenWorld none) "c" ∧
    stopRemainingTasks (tokenWorld (some "more")) "c" =
      stopRemainingTasks (tokenWorld none) "c" :=
  ⟨first_page_only.2.1 (tokenWorld (some "more")) (tokenWorld none) "c"
      ["svc/A"] (some "more") none rfl rfl rfl,
   first_page_only.2.2 (tokenWorld (some "more")) (tokenWorld none) "c"
      ["task/t1"] (some "more") none rfl rfl⟩
